import Mathlib

/-!
Verification of the background coordination service of the Contextual
browser extension (src/background.js) against its natural-language
specification.  JavaScript strings are embedded as `List Char`;
JavaScript numbers that the relevant code paths use as integers
(timestamps, lengths, token counts) are embedded as `Nat`.  Network and
page access are modelled as explicit oracles passed to the embedded
functions, and fallible code returns `Except`.
-/

set_option autoImplicit false
set_option maxRecDepth 100000

namespace Contextual

/-- JavaScript strings are modelled as lists of characters. -/
abbrev Str := List Char

/-- The sentence-terminator class of the regex piece [.!?] used by
`getRelevantContext` and the article-summary computation. -/
def isTermChar (c : Char) : Bool := c = '.' || c = '!' || c = '?'

/-- JavaScript `String.prototype.toLowerCase`, restricted to the
character-wise lowering that the embedded texts exercise. -/
def lowerStr (s : Str) : Str := s.map Char.toLower

/-- `isPrefixOfB needle hay` decides whether `needle` is a prefix of
`hay`; this is the primitive behind `startsWith` and substring search. -/
def isPrefixOfB : Str → Str → Bool
  | [], _ => true
  | _ :: _, [] => false
  | a :: as, b :: bs => a = b && isPrefixOfB as bs

/-- JavaScript `hay.includes(needle)`: contiguous-substring test. -/
def hasSubstr : Str → Str → Bool
  | [], needle => isPrefixOfB needle []
  | c :: t, needle => isPrefixOfB needle (c :: t) || hasSubstr t needle

/-- JavaScript `hay.indexOf(needle)`, with `none` standing for -1. -/
def indexOfSub : Str → Str → Option Nat
  | [], needle => if isPrefixOfB needle [] then some 0 else none
  | c :: t, needle =>
      if isPrefixOfB needle (c :: t) then some 0
      else (indexOfSub t needle).map (· + 1)

/-- JavaScript `String.prototype.trim`. -/
def trimStr (s : Str) : Str :=
  ((s.dropWhile Char.isWhitespace).reverse.dropWhile Char.isWhitespace).reverse

/-- JavaScript `Array.prototype.join(" ")` on an array of strings. -/
def joinSpace (l : List Str) : Str := List.intercalate [' '] l

/-- JavaScript `s.endsWith(suffix)`. -/
def endsWithB (s suff : Str) : Bool := isPrefixOfB suff.reverse s.reverse

/-- The scanner of the global regex /[^.!?]+[.!?]+/g from
`getRelevantContext` (background.js line 259): `content` holds the
pending run of non-terminator characters and `terms` the pending run of
terminator characters of the match being built.  A trailing run of
non-terminator characters with no terminator is not a match and is
dropped, exactly as for the regex. -/
def sentScan : Str → Str → Str → List Str
  | [], content, terms => if terms.isEmpty then [] else [content ++ terms]
  | c :: rest, content, terms =>
      if isTermChar c then
        if content.isEmpty then sentScan rest [] []
        else sentScan rest content (terms ++ [c])
      else
        if terms.isEmpty then sentScan rest (content ++ [c]) []
        else (content ++ terms) :: sentScan rest [c] []

/-- `fullText.match(/[^.!?]+[.!?]+/g) || [fullText]` (background.js
lines 259 and 307): the sentence list, falling back to the whole text
when the regex has no match. -/
def sentences (s : Str) : List Str :=
  let ms := sentScan s [] []
  if ms.isEmpty then [s] else ms

/-- The sentence-search loop of `getRelevantContext` (background.js
lines 260-266): index of the first sentence satisfying `p`, with `none`
standing for -1. -/
def findSentenceIdx (p : Str → Bool) : List Str → Option Nat
  | [] => none
  | s :: rest => if p s then some 0 else (findSentenceIdx p rest).map (· + 1)

/-- `getRelevantContext(fullText, selectedText)` (background.js lines
249-279).  Empty strings play the role of the falsy non-string guards.
`Nat` subtraction realises the `Math.max(0, _)` clamps. -/
def getRelevantContext (fullText selectedText : Str) : Str :=
  if fullText.isEmpty then []
  else if selectedText.isEmpty then fullText.take 800
  else
    let ss := sentences fullText
    match findSentenceIdx (fun sent => hasSubstr (lowerStr sent) (lowerStr selectedText)) ss with
    | some i =>
        let startIdx := i - 3
        let endIdx := min ss.length (i + 4)
        trimStr (joinSpace ((ss.drop startIdx).take (endIdx - startIdx)))
    | none =>
        match indexOfSub (lowerStr fullText) (lowerStr selectedText) with
        | none => fullText.take 800
        | some idx =>
            let start := idx - 600
            let stop := min fullText.length (idx + selectedText.length + 600)
            (fullText.drop start).take (stop - start)

/-- `estimateTokens(text)` (background.js lines 242-247):
`Math.ceil(text.length / 4)`, and 0 for empty input. -/
def estimateTokens (s : Str) : Nat := (s.length + 3) / 4

/-- The article-summary computation of `callGeminiAPIInternal`
(background.js lines 306-309): first 4 sentences, joined, capped at 400
characters and trimmed, falling back to the trimmed first 400 characters
of the full text when that is empty. -/
def articleSummaryOf (fullText : Str) : Str :=
  let s0 := trimStr ((joinSpace ((sentences fullText).take 4)).take 400)
  if s0.isEmpty then trimStr (fullText.take 400) else s0

/-- `maxContextLength` (background.js line 282). -/
def maxContextLength : Nat := 1500

/-- The estimated input-token count guarded at background.js line 327:
tokens of the truncated relevant context, of the selected text and of
the article summary, plus 150. -/
def estimatedInputTokens (selectedText fullText : Str) : Nat :=
  estimateTokens ((getRelevantContext fullText selectedText).take maxContextLength)
    + estimateTokens selectedText + estimateTokens (articleSummaryOf fullText) + 150

/-- Parameters of `callGeminiAPIInternal` (background.js line 281). -/
structure ApiParams where
  apiKey : Str
  modelName : Str
  selectedText : Str
  fullText : Str
  style : Str
deriving DecidableEq

/-- The network collaborator: for a given `max_tokens` budget, the
outcome of the fetch-and-parse of one ladder attempt, either the
`choices[0].message.content`-shaped payload or a thrown error message. -/
abbrev FetchOracle := Nat → Except Str Str

def invalidPageMsg : Str := ("Invalid page content. Please try refreshing the page.").data
def invalidSelMsg : Str := ("Invalid selected text. Please make a new selection.").data
def noApiKeyMsg : Str := ("No API key provided. Please configure it in the extension settings.").data
def noModelNameMsg : Str := ("No model name provided. Please configure it in the extension settings.").data
def inputTooLongMsg : Str := ("Input too long. Please select a shorter phrase or try on a simpler page.").data
def invalidKeyPrefixMsg : Str := ("Invalid or missing OpenRouter API key. Please set a valid key in the extension settings.").data
def modelNotSetMsg : Str := ("Model name not set. Please set it in the extension settings.").data

/-- The fallback error thrown when the ladder ends with no recorded
error (background.js line 432); the apostrophe is `Char.ofNat 39`. -/
def allBudgetsFailedMsg : Str :=
  ("The AI").data ++ [Char.ofNat 39] ++
    ("s response was cut short by the OpenRouter API. All output token limits failed. Try a shorter selection or simpler page.").data

/-- The descending output-token ladder (background.js line 372). -/
def outputTokenSteps : List Nat := [1024, 768, 512]

/-- The body of one ladder iteration (background.js lines 375-426): the
in-loop credential checks, then the fetch; any thrown error is the
iteration outcome. -/
def attemptStep (fetch : FetchOracle) (p : ApiParams) (budget : Nat) : Except Str Str :=
  if !isPrefixOfB ("sk-or-").data p.apiKey then Except.error invalidKeyPrefixMsg
  else if p.modelName.isEmpty then Except.error modelNotSetMsg
  else fetch budget

/-- The ladder loop (background.js lines 373-432): first successful
attempt returns; a failed attempt records `lastError` and moves to the
next rung; when the rungs are exhausted the recorded last error (or the
fallback message) is thrown. -/
def tryBudgets (attempt : Nat → Except Str Str) : List Nat → Option Str → Except Str Str
  | [], last =>
      Except.error (match last with | some e => e | none => allBudgetsFailedMsg)
  | b :: bs, _ =>
      match attempt b with
      | Except.ok r => Except.ok r
      | Except.error e => tryBudgets attempt bs (some e)

/-- `callGeminiAPIInternal` (background.js lines 281-433): input
validation, relevant-context and summary computation, the estimated
input-token guard, then the output-token ladder.  The prompt string and
request payload are composed from the same data and are opaque to every
property below, so they are folded into the fetch oracle. -/
def callGeminiAPIInternal (fetch : FetchOracle) (p : ApiParams) : Except Str Str :=
  if p.fullText.isEmpty then Except.error invalidPageMsg
  else if p.selectedText.isEmpty then Except.error invalidSelMsg
  else if p.apiKey.isEmpty then Except.error noApiKeyMsg
  else if p.modelName.isEmpty then Except.error noModelNameMsg
  else if estimatedInputTokens p.selectedText p.fullText > 1200 then
    Except.error inputTooLongMsg
  else tryBudgets (attemptStep fetch p) outputTokenSteps none

/-- Helper for `wordCount`: counts maximal runs of non-whitespace
characters; `inWord` records whether the previous character was part of
a run. -/
def wordCountAux : Str → Bool → Nat
  | [], _ => 0
  | c :: t, inWord =>
      if c.isWhitespace then wordCountAux t false
      else (if inWord then 0 else 1) + wordCountAux t true

/-- `trimmedText.split(/\s+/).length` (background.js line 172): on a
trimmed non-empty string this is the number of maximal non-whitespace
runs. -/
def wordCount (s : Str) : Nat := wordCountAux s false

/-- The characters of the proper-ending regex class at background.js
line 171; `Char.ofNat 39` is the apostrophe and `Char.ofNat 96` the
backtick. -/
def properEnders : Str := ['.', '!', '?', ')', ']', '"', Char.ofNat 39, Char.ofNat 96, '*']

/-- `hasProperEnding` (background.js line 171): the regex
/[.!?)\]"(apostrophe)(backtick)*]\s*$/ holds exactly when the last
non-whitespace character is in the class; plus the two explicit
`endsWith` disjuncts.  In the source this value is only logged: it is
computed and never used in the rejection decision. -/
def hasProperEnding (t : Str) : Bool :=
  (match t.reverse.dropWhile Char.isWhitespace with
   | [] => false
   | c :: _ => properEnders.any (fun d => d = c))
  || endsWithB t (")*").data || endsWithB t (".)").data

/-- `validateResponse(text, style)` (background.js lines 156-196).
Empty strings play the role of the falsy and non-string guards. -/
def validateResponse (text style : Str) : Except Str Str :=
  if text.isEmpty then Except.error ("Invalid response text").data
  else if style.isEmpty then Except.error ("Invalid style parameter").data
  else
    let trimmedText := trimStr text
    if trimmedText.isEmpty then Except.error ("Response is empty").data
    else
      let wc := wordCount trimmedText
      let meetsLengthRequirement :=
        if style = ("Simple").data then decide (15 ≤ wc) && decide (wc ≤ 150)
        else decide (30 ≤ wc)
      let hasAbruptCut := endsWithB trimmedText ("..").data && !endsWithB trimmedText ("...").data
      if !meetsLengthRequirement || hasAbruptCut then
        Except.error ("Response appears incomplete").data
      else Except.ok trimmedText

/-- A value of the `explanationCache` map (background.js lines 523-526):
the validated explanation and its creation timestamp. -/
structure CacheEntry where
  data : Str
  timestamp : Nat
deriving DecidableEq

/-- The `explanationCache` map (background.js line 4), embedded as an
association list with at most one binding per key. -/
abbrev Cache := List (Str × CacheEntry)

/-- `explanationCache.get(key)`. -/
def cacheGet : Cache → Str → Option CacheEntry
  | [], _ => none
  | (k, e) :: rest, key => if k = key then some e else cacheGet rest key

/-- `explanationCache.set(key, entry)`: replaces the binding in place
when present, otherwise appends it. -/
def cacheSet : Cache → Str → CacheEntry → Cache
  | [], key, e => [(key, e)]
  | (k, e0) :: rest, key, e =>
      if k = key then (k, e) :: rest else (k, e0) :: cacheSet rest key e

/-- `explanationCache.delete(key)` for every binding of the key. -/
def cacheRemove : Cache → Str → Cache
  | [], _ => []
  | (k, e0) :: rest, key =>
      if k = key then cacheRemove rest key else (k, e0) :: cacheRemove rest key

/-- `CACHE_TTL` (background.js line 5): 30 minutes in milliseconds. -/
def CACHE_TTL : Nat := 30 * 60 * 1000

/-- The hourly sweep body (background.js lines 8-15): deletes every
entry with `now - timestamp > CACHE_TTL`. -/
def sweepCache (now : Nat) (c : Cache) : Cache :=
  c.filter (fun kv => !decide (now - kv.2.timestamp > CACHE_TTL))

/-- The cache key of background.js line 474:
`selectedText + "-" + style + "-" + modelName`. -/
def cacheKeyOf (selectedText style modelName : Str) : Str :=
  selectedText ++ ("-").data ++ style ++ ("-").data ++ modelName

/-- The payload of a `getExplanation` message (background.js line 474). -/
structure RequestPayload where
  selectedText : Str
  style : Str
deriving DecidableEq

/-- Outcome of the page-extraction collaborator
(`chrome.scripting.executeScript` with `getVisibleText`, background.js
lines 483-494): the script may throw, return no result, or return the
extracted page text. -/
inductive ExtractionResult where
  | scriptError
  | noResult
  | ok (pageText : Str)
deriving DecidableEq

/-- Environment read by the `getExplanation` handler: the two stored
settings (empty string standing for unset/falsy) and the extraction
collaborator outcome. -/
structure HandlerEnv where
  apiKey : Str
  modelName : Str
  extraction : ExtractionResult
deriving DecidableEq

/-- The structured response sent back to the UI layer: either
`{status:"success", data, cached}` or `{status:"error", message}`. -/
inductive HResponse where
  | success (data : Str) (cached : Bool)
  | failure (message : Str)
deriving DecidableEq

/-- Observable outcome of one `getExplanation` request: the response,
whether page-content extraction was attempted, whether the dispatch
(`callGeminiAPI` and with it `callGeminiAPIInternal`) was invoked, and
the cache contents afterwards. -/
structure HandlerOutcome where
  response : HResponse
  extracted : Bool
  dispatched : Bool
  cacheAfter : Cache
deriving DecidableEq

def apiKeyNotSetMsg : Str := ("OpenRouter API Key not set. Please set it in the extension settings.").data
def scriptFailMsg : Str := ("Failed to access page content. Please refresh the page and try again.").data
def noResultMsg : Str := ("Could not extract text from the page. Please refresh and try again.").data
def noReadableMsg : Str := ("No readable content found on this page. Please try a different page.").data
def notReadablePageMsg : Str := ("This page does not contain readable text content. Please try a different page.").data

/-- The cache-miss remainder of the `getExplanation` handler
(background.js lines 481-532): extraction, the page-text checks, the
dispatch and response validation.  Returns the response, whether the
dispatch was invoked, and the validated value to store (on the fresh
success path only).  Extraction is attempted in every branch of this
function. -/
def proceedPart (fetch : FetchOracle) (ext : ExtractionResult)
    (apiKey modelName : Str) (req : RequestPayload) : HResponse × Bool × Option Str :=
  match ext with
  | ExtractionResult.scriptError => (HResponse.failure scriptFailMsg, false, none)
  | ExtractionResult.noResult => (HResponse.failure noResultMsg, false, none)
  | ExtractionResult.ok pageText =>
      if pageText.isEmpty then (HResponse.failure noResultMsg, false, none)
      else if (trimStr pageText).isEmpty then (HResponse.failure noReadableMsg, false, none)
      else if hasSubstr pageText ("Unable to extract text").data
              || hasSubstr pageText ("No content available").data then
        (HResponse.failure notReadablePageMsg, false, none)
      else
        let apiParams : ApiParams :=
          ⟨apiKey, modelName, req.selectedText, pageText.take 2000, req.style⟩
        match callGeminiAPIInternal fetch apiParams with
        | Except.error e => (HResponse.failure e, true, none)
        | Except.ok content =>
            match validateResponse content req.style with
            | Except.error e => (HResponse.failure e, true, none)
            | Except.ok v => (HResponse.success v false, true, some v)

/-- The `getExplanation` message handler (background.js lines 462-549):
settings checks, cache lookup with TTL check on read, then the cache
miss path `proceedPart`; a fresh validated explanation is stored with
the current timestamp.  `now` is the value of `Date.now()` during this
request. -/
def getExplanation (fetch : FetchOracle) (env : HandlerEnv) (cache : Cache)
    (req : RequestPayload) (now : Nat) : HandlerOutcome :=
  if env.apiKey.isEmpty then ⟨HResponse.failure apiKeyNotSetMsg, false, false, cache⟩
  else if env.modelName.isEmpty then ⟨HResponse.failure modelNotSetMsg, false, false, cache⟩
  else
    let cacheKey := cacheKeyOf req.selectedText req.style env.modelName
    let hit :=
      match cacheGet cache cacheKey with
      | some e => if now - e.timestamp < CACHE_TTL then some e.data else none
      | none => none
    match hit with
    | some d => ⟨HResponse.success d true, false, false, cache⟩
    | none =>
        let pr := proceedPart fetch env.extraction env.apiKey env.modelName req
        ⟨pr.1, true, pr.2.1,
          match pr.2.2 with
          | some v => cacheSet cache cacheKey ⟨v, now⟩
          | none => cache⟩

/-- The dispatch step of `processQueue` (background.js lines 221-226):
the head request is dispatched; on success the shared
`rateLimit.lastRequestTime` is set to the completion time (`Date.now()`
after the call, here `doneAt`) and on failure it is left unchanged.
Returns the new `lastRequestTime` and the settled outcome. -/
def processDispatch (fetch : FetchOracle) (p : ApiParams)
    (lastRequestTime doneAt : Nat) : Nat × Except Str Str :=
  match callGeminiAPIInternal fetch p with
  | Except.ok r => (doneAt, Except.ok r)
  | Except.error e => (lastRequestTime, Except.error e)

/-- The selection guard of the content script (content.js line 321):
the trigger icon, and with it any `getExplanation` request, is created
only when `0 < selectedText.length < 1000`. -/
def selectionTriggers (selectedText : Str) : Bool :=
  decide (0 < selectedText.length) && decide (selectedText.length < 1000)

/-- The trigger substring of the context-shrink branch of `withRetry`
(background.js line 139). -/
def tokenLimitTrigger : Str := ("Token limit exceeded").data

deriving instance DecidableEq for Except

/-- Spec-side predicate (from the spec wording): the style-dependent
word-count window, Simple 15-150 words, otherwise at least 30 words. -/
def specLengthOk (style : Str) (wc : Nat) : Prop :=
  if style = ("Simple").data then 15 ≤ wc ∧ wc ≤ 150 else 30 ≤ wc

instance (style : Str) (wc : Nat) : Decidable (specLengthOk style wc) := by
  unfold specLengthOk
  infer_instance

/-- Spec-side predicate (from the spec wording): the text ends with an
incomplete ellipsis, two dots but not three. -/
def specAbruptEllipsis (t : Str) : Prop :=
  endsWithB t ("..").data = true ∧ endsWithB t ("...").data = false

instance (t : Str) : Decidable (specAbruptEllipsis t) := by
  unfold specAbruptEllipsis
  infer_instance

/-! Concrete sample inputs used by witnesses and counterexamples. -/

/-- Twenty words with no terminal punctuation. -/
def sampleWords20 : Str := ("one two three four five six seven eight nine ten eleven twelve thirteen fourteen fifteen sixteen seventeen eighteen nineteen twenty").data

/-- Fifty words ending in a full stop. -/
def sampleSimple50 : Str :=
  sampleWords20 ++ (" ").data ++ sampleWords20 ++
    (" alpha beta gamma delta epsilon zeta eta theta iota kappa.").data

/-- Ten words ending in a full stop. -/
def sampleSimple10 : Str := ("alpha beta gamma delta epsilon zeta eta theta iota kappa.").data

/-- Twenty-five words ending in a full stop. -/
def sampleTech25 : Str := sampleWords20 ++ (" alpha beta gamma delta epsilon.").data

/-- Forty words ending in a plain letter. -/
def sampleTech40 : Str := sampleWords20 ++ (" ").data ++ sampleWords20

/-- A page of seven sentences and 816 characters: its first 800
characters estimate to 200 tokens and its first four sentences fill the
400-character summary cap (100 tokens). -/
def samplePageLarge : Str :=
  ("Alpha reads words. ").data ++ sampleWords20 ++ (". ").data ++ sampleWords20 ++ (". ").data
    ++ sampleWords20 ++ (". ").data ++ sampleWords20 ++ (". ").data ++ sampleWords20
    ++ (". ").data ++ sampleWords20 ++ (".").data

/-! Supporting lemmas about the text primitives. -/

theorem isPrefixOfB_iff : ∀ (n h : Str), isPrefixOfB n h = true ↔ n <+: h
  | [], h => by simp [isPrefixOfB]
  | a :: as, [] => by simp [isPrefixOfB]
  | a :: as, b :: bs => by
      simp [isPrefixOfB, isPrefixOfB_iff as bs, List.cons_prefix_cons]

theorem hasSubstr_iff : ∀ (h n : Str), hasSubstr h n = true ↔ n <:+: h
  | [], n => by simp [hasSubstr, isPrefixOfB_iff, List.prefix_nil, List.infix_nil]
  | c :: t, n => by
      simp [hasSubstr, isPrefixOfB_iff, hasSubstr_iff t n, List.infix_cons_iff]

theorem sentScan_infix : ∀ (rest content terms m : Str),
    m ∈ sentScan rest content terms → m <:+: content ++ terms ++ rest
  | [], content, terms, m => by
      intro hm
      simp only [sentScan] at hm
      split at hm
      · exact absurd hm (List.not_mem_nil m)
      · have h := List.mem_singleton.mp hm
        subst h
        exact ⟨[], [], by simp⟩
  | c :: rest, content, terms, m => by
      intro hm
      simp only [sentScan] at hm
      by_cases h1 : isTermChar c = true
      · rw [if_pos h1] at hm
        by_cases h2 : content.isEmpty = true
        · rw [if_pos h2] at hm
          have h := sentScan_infix rest [] [] m hm
          simp only [List.nil_append] at h
          refine h.trans (List.IsSuffix.isInfix ?_)
          have heq : (content ++ terms ++ [c]) ++ rest = content ++ terms ++ (c :: rest) := by
            simp
          rw [← heq]
          exact List.suffix_append _ _
        · rw [if_neg h2] at hm
          have h := sentScan_infix rest content (terms ++ [c]) m hm
          have heq : content ++ (terms ++ [c]) ++ rest = content ++ terms ++ (c :: rest) := by
            simp
          rwa [heq] at h
      · rw [if_neg h1] at hm
        by_cases h2 : terms.isEmpty = true
        · rw [if_pos h2] at hm
          have h3 : terms = [] := by simpa using h2
          subst h3
          have h := sentScan_infix rest (content ++ [c]) [] m hm
          have heq : (content ++ [c]) ++ [] ++ rest = content ++ [] ++ (c :: rest) := by simp
          rwa [heq] at h
        · rw [if_neg h2] at hm
          rcases List.mem_cons.mp hm with h | h
          · subst h
            exact ⟨[], c :: rest, by simp⟩
          · have h := sentScan_infix rest [c] [] m h
            simp only [List.append_nil] at h
            refine h.trans (List.IsSuffix.isInfix ?_)
            have heq : (content ++ terms) ++ ([c] ++ rest) = content ++ terms ++ (c :: rest) := by
              simp
            rw [← heq]
            exact List.suffix_append _ _

theorem sentences_infix (ft s : Str) (hs : s ∈ sentences ft) : s <:+: ft := by
  simp only [sentences] at hs
  by_cases h : (sentScan ft [] []).isEmpty = true
  · rw [if_pos h] at hs
    have h2 := List.mem_singleton.mp hs
    rw [h2]
  · rw [if_neg h] at hs
    have h2 := sentScan_infix ft [] [] s hs
    simpa using h2

theorem findSentenceIdx_eq_none {p : Str → Bool} : ∀ (l : List Str),
    (∀ x ∈ l, p x = false) → findSentenceIdx p l = none
  | [], _ => rfl
  | s :: rest, h => by
      have hs := h s (List.mem_cons_self s rest)
      simp [findSentenceIdx, hs,
        findSentenceIdx_eq_none rest (fun x hx => h x (List.mem_cons_of_mem s hx))]

theorem indexOfSub_eq_none : ∀ (h n : Str), hasSubstr h n = false → indexOfSub h n = none
  | [], n, hh => by
      simp only [hasSubstr] at hh
      simp [indexOfSub, hh]
  | c :: t, n, hh => by
      simp only [hasSubstr, Bool.or_eq_false_iff] at hh
      simp [indexOfSub, hh.1, indexOfSub_eq_none t n hh.2]

theorem no_sentence_contains (ft sel : Str)
    (h : hasSubstr (lowerStr ft) (lowerStr sel) = false) :
    ∀ s ∈ sentences ft, hasSubstr (lowerStr s) (lowerStr sel) = false := by
  intro s hs
  by_contra hc
  rw [Bool.not_eq_false] at hc
  have hinf : lowerStr sel <:+: lowerStr s := (hasSubstr_iff _ _).mp hc
  have hsf : s <:+: ft := sentences_infix ft s hs
  have hmap : lowerStr s <:+: lowerStr ft := hsf.map Char.toLower
  have hsel : lowerStr sel <:+: lowerStr ft := hinf.trans hmap
  have htrue := (hasSubstr_iff (lowerStr ft) (lowerStr sel)).mpr hsel
  simp [h] at htrue

theorem hasSubstr_nil : ∀ (h : Str), hasSubstr h [] = true
  | [] => rfl
  | _ :: _ => by simp [hasSubstr, isPrefixOfB]

/-- C7: context window selection.  For a `fullText` splitting into 10
sentences whose fifth sentence is the first to contain `selectedText`
case-insensitively, `getRelevantContext` returns sentences 2-8 (three
before and three after the match, clamped to bounds) joined with spaces
and trimmed; and for a `fullText` that does not contain `selectedText`
at all (case-insensitively), it returns the first 800 characters of
`fullText`. -/
theorem context_window_selection :
    (∀ (ft sel s0 s1 s2 s3 s4 s5 s6 s7 s8 s9 : Str),
      sentences ft = [s0, s1, s2, s3, s4, s5, s6, s7, s8, s9] →
      hasSubstr (lowerStr s0) (lowerStr sel) = false →
      hasSubstr (lowerStr s1) (lowerStr sel) = false →
      hasSubstr (lowerStr s2) (lowerStr sel) = false →
      hasSubstr (lowerStr s3) (lowerStr sel) = false →
      hasSubstr (lowerStr s4) (lowerStr sel) = true →
      getRelevantContext ft sel = trimStr (joinSpace [s1, s2, s3, s4, s5, s6, s7])) ∧
    (∀ (ft sel : Str),
      hasSubstr (lowerStr ft) (lowerStr sel) = false →
      getRelevantContext ft sel = ft.take 800) := by
  constructor
  · intro ft sel s0 s1 s2 s3 s4 s5 s6 s7 s8 s9 hsent h0 h1 h2 h3 h4
    have hft : ft.isEmpty = false := by
      cases ft with
      | nil => simp [sentences, sentScan] at hsent
      | cons c t => rfl
    have hsel : sel.isEmpty = false := by
      cases sel with
      | nil =>
          rw [show lowerStr [] = [] from rfl, hasSubstr_nil] at h0
          cases h0
      | cons c t => rfl
    have hfind : findSentenceIdx
        (fun sent => hasSubstr (lowerStr sent) (lowerStr sel))
        [s0, s1, s2, s3, s4, s5, s6, s7, s8, s9] = some 4 := by
      simp [findSentenceIdx, h0, h1, h2, h3, h4]
    simp only [getRelevantContext, hft, Bool.false_eq_true, if_false, hsel, hsent, hfind]
    norm_num
  · intro ft sel h
    by_cases hft : ft = []
    · subst hft
      simp [getRelevantContext]
    · by_cases hsel : sel = []
      · subst hsel
        rw [show lowerStr [] = [] from rfl, hasSubstr_nil] at h
        cases h
      · have hall : ∀ s ∈ sentences ft,
            (fun sent => hasSubstr (lowerStr sent) (lowerStr sel)) s = false := by
          intro s hs
          exact no_sentence_contains ft sel h s hs
        have hfind := findSentenceIdx_eq_none (sentences ft) hall
        have hidx := indexOfSub_eq_none (lowerStr ft) (lowerStr sel) h
        simp [getRelevantContext, hft, hsel, hfind, hidx]

/-- Witness for C7 at a concrete 10-sentence text whose fifth sentence
contains the selection, and a concrete text free of the selection. -/
theorem context_window_selection_witness :
    getRelevantContext
        ("One red fox ran. Two dogs sat. Three cats nap. Four owls fly. Five bats MUTEX here. Six pigs dig. Seven hens peck. Eight cows moo. Nine rats hide. Ten elks roam.").data
        ("mutex").data
      = trimStr (joinSpace
          [(" Two dogs sat.").data, (" Three cats nap.").data, (" Four owls fly.").data,
           (" Five bats MUTEX here.").data, (" Six pigs dig.").data, (" Seven hens peck.").data,
           (" Eight cows moo.").data])
    ∧ getRelevantContext ("Alpha beta. Gamma delta.").data ("zzz").data
      = (("Alpha beta. Gamma delta.").data).take 800 := by
  constructor
  · exact context_window_selection.1
      ("One red fox ran. Two dogs sat. Three cats nap. Four owls fly. Five bats MUTEX here. Six pigs dig. Seven hens peck. Eight cows moo. Nine rats hide. Ten elks roam.").data
      ("mutex").data
      ("One red fox ran.").data (" Two dogs sat.").data (" Three cats nap.").data
      (" Four owls fly.").data (" Five bats MUTEX here.").data (" Six pigs dig.").data
      (" Seven hens peck.").data (" Eight cows moo.").data (" Nine rats hide.").data
      (" Ten elks roam.").data
      (by decide) (by decide) (by decide) (by decide) (by decide) (by decide)
  · exact context_window_selection.2 ("Alpha beta. Gamma delta.").data ("zzz").data (by decide)

theorem specLengthOk_iff (style : Str) (wc : Nat) :
    ((if style = ("Simple").data then decide (15 ≤ wc) && decide (wc ≤ 150)
      else decide (30 ≤ wc)) = true) ↔ specLengthOk style wc := by
  by_cases h : style = ("Simple").data <;> simp [specLengthOk, h]

theorem isEmpty_false_iff (l : Str) : l.isEmpty = false ↔ l ≠ [] := by
  cases l <;> simp

theorem abrupt_bool_iff (t : Str) :
    (endsWithB t ("..").data && !endsWithB t ("...").data) = false ↔
      ¬ specAbruptEllipsis t := by
  unfold specAbruptEllipsis
  cases h2 : endsWithB t ("..").data <;> cases h3 : endsWithB t ("...").data <;> simp

theorem validateResponse_ok_iff (text style : Str)
    (htextB : text.isEmpty = false) (hstyleB : style.isEmpty = false) :
    validateResponse text style = Except.ok (trimStr text) ↔
      ((trimStr text).isEmpty = false ∧
       (if style = ("Simple").data then
          decide (15 ≤ wordCount (trimStr text)) && decide (wordCount (trimStr text) ≤ 150)
        else decide (30 ≤ wordCount (trimStr text))) = true ∧
       (endsWithB (trimStr text) ("..").data
          && !endsWithB (trimStr text) ("...").data) = false) := by
  simp only [validateResponse, htextB, hstyleB, Bool.false_eq_true, if_false]
  split
  · rename_i hemp
    simp [hemp]
  · rename_i hemp
    have hempF : (trimStr text).isEmpty = false := by
      revert hemp
      cases (trimStr text).isEmpty <;> simp
    generalize (if style = ("Simple").data then
        decide (15 ≤ wordCount (trimStr text)) && decide (wordCount (trimStr text) ≤ 150)
      else decide (30 ≤ wordCount (trimStr text))) = meets
    cases meets with
    | false => simp
    | true =>
        cases hab : (endsWithB (trimStr text) ("..").data
            && !endsWithB (trimStr text) ("...").data) with
        | true => simp
        | false => simp [hempF]

theorem validateResponse_ok_val (text style r : Str)
    (h : validateResponse text style = Except.ok r) : r = trimStr text := by
  unfold validateResponse at h
  repeat' split at h
  all_goals try simp_all
  all_goals repeat' split at h
  all_goals simp_all

/-- C8: `validateResponse` succeeds exactly when the trimmed text is
non-empty, its word count lies in the style-dependent window (Simple:
15-150 words; any other style, Technical included: at least 30 words,
no upper bound) and the text does not end with an incomplete ellipsis;
a success always returns the trimmed text unchanged.  The
proper-sentence-ending value (`hasProperEnding`) does not occur in this
characterisation: it never causes a rejection. -/
theorem response_validation (text style : Str)
    (htext : text ≠ [])
    (hstyle : style = ("Simple").data ∨ style = ("Technical").data) :
    (validateResponse text style = Except.ok (trimStr text) ↔
      (trimStr text ≠ [] ∧ specLengthOk style (wordCount (trimStr text)) ∧
        ¬ specAbruptEllipsis (trimStr text)))
    ∧ ∀ r, validateResponse text style = Except.ok r → r = trimStr text := by
  have htextB : text.isEmpty = false := by
    cases text with
    | nil => exact absurd rfl htext
    | cons c t => rfl
  have hstyleB : style.isEmpty = false := by
    rcases hstyle with h | h <;> subst h <;> rfl
  constructor
  · rw [validateResponse_ok_iff text style htextB hstyleB]
    rw [isEmpty_false_iff, specLengthOk_iff, abrupt_bool_iff]
  · intro r h
    exact validateResponse_ok_val text style r h

/-- Witness for C8: a Simple response of 50 words ending in a full stop
is accepted, a Technical response of 40 words is accepted, a Simple
response of 10 words is rejected, a Technical response of 25 words is
rejected, and a response without a proper sentence ending is accepted
regardless (the proper-ending check rejects nothing). -/
theorem response_validation_witness :
    validateResponse sampleSimple50 ("Simple").data = Except.ok (trimStr sampleSimple50)
    ∧ validateResponse sampleTech40 ("Technical").data = Except.ok (trimStr sampleTech40)
    ∧ validateResponse sampleSimple10 ("Simple").data
        = Except.error ("Response appears incomplete").data
    ∧ validateResponse sampleTech25 ("Technical").data
        = Except.error ("Response appears incomplete").data
    ∧ hasProperEnding (trimStr sampleTech40) = false := by
  refine ⟨?_, ?_, by decide, by decide, by decide⟩
  · exact (response_validation sampleSimple50 ("Simple").data (by decide)
      (Or.inl rfl)).1.mpr (by decide)
  · exact (response_validation sampleTech40 ("Technical").data (by decide)
      (Or.inr rfl)).1.mpr (by decide)

/-- C3: once the input checks and the token guard pass, the dispatch
tries the output-token budgets 1024, 768, 512 in descending order; the
first rung whose attempt succeeds yields the returned result (whatever
the later rungs would do); a failed rung falls through to the next; and
only when all three rungs have failed is the failure surfaced, namely
the error of the last rung. -/
theorem token_budget_ladder (fetch : FetchOracle) (p : ApiParams)
    (hft : p.fullText ≠ [])
    (hsel : p.selectedText ≠ [])
    (hkey : isPrefixOfB ("sk-or-").data p.apiKey = true)
    (hmodel : p.modelName ≠ [])
    (htok : estimatedInputTokens p.selectedText p.fullText ≤ 1200) :
    (∀ r, fetch 1024 = Except.ok r → callGeminiAPIInternal fetch p = Except.ok r)
    ∧ (∀ e1 r, fetch 1024 = Except.error e1 → fetch 768 = Except.ok r →
        callGeminiAPIInternal fetch p = Except.ok r)
    ∧ (∀ e1 e2 r, fetch 1024 = Except.error e1 → fetch 768 = Except.error e2 →
        fetch 512 = Except.ok r → callGeminiAPIInternal fetch p = Except.ok r)
    ∧ (∀ e1 e2 e3, fetch 1024 = Except.error e1 → fetch 768 = Except.error e2 →
        fetch 512 = Except.error e3 →
        callGeminiAPIInternal fetch p = Except.error e3) := by
  have hkeyne : p.apiKey.isEmpty = false := by
    cases hk : p.apiKey with
    | nil => rw [hk] at hkey; cases hkey
    | cons c t => rfl
  have hftB : p.fullText.isEmpty = false := (isEmpty_false_iff _).mpr hft
  have hselB : p.selectedText.isEmpty = false := (isEmpty_false_iff _).mpr hsel
  have hmodelB : p.modelName.isEmpty = false := (isEmpty_false_iff _).mpr hmodel
  have hguard : ¬ (estimatedInputTokens p.selectedText p.fullText > 1200) := by omega
  have hstep : ∀ b, attemptStep fetch p b = fetch b := by
    intro b
    simp [attemptStep, hkey, hmodelB]
  refine ⟨?_, ?_, ?_, ?_⟩ <;> intros <;>
    simp_all [callGeminiAPIInternal, hftB, hselB, hkeyne, hmodelB, hguard,
      outputTokenSteps, tryBudgets, hstep]

/-- Witness for C3 at a concrete request whose fetch fails at budgets
1024 and 768 and succeeds at 512: the 512-rung result is returned. -/
theorem token_budget_ladder_witness :
    callGeminiAPIInternal
        (fun b => if b = 512 then Except.ok sampleTech40 else Except.error ("boom").data)
        ⟨("sk-or-key").data, ("m").data, ("mutex").data,
          ("A mutex prevents concurrent access to shared state.").data, ("Technical").data⟩
      = Except.ok sampleTech40 := by
  exact (token_budget_ladder
      (fun b => if b = 512 then Except.ok sampleTech40 else Except.error ("boom").data)
      ⟨("sk-or-key").data, ("m").data, ("mutex").data,
        ("A mutex prevents concurrent access to shared state.").data, ("Technical").data⟩
      (by decide) (by decide) (by decide) (by decide) (by decide)).2.2.1
      ("boom").data ("boom").data sampleTech40 (by decide) (by decide) (by decide)

theorem callGeminiAPIInternal_first_ok (fetch : FetchOracle) (p : ApiParams) (r : Str)
    (hft : p.fullText.isEmpty = false) (hsel : p.selectedText.isEmpty = false)
    (hkey : isPrefixOfB ("sk-or-").data p.apiKey = true)
    (hmodel : p.modelName.isEmpty = false)
    (htok : ¬ (estimatedInputTokens p.selectedText p.fullText > 1200))
    (hfetch : fetch 1024 = Except.ok r) :
    callGeminiAPIInternal fetch p = Except.ok r := by
  have hkeyne : p.apiKey.isEmpty = false := by
    cases hk : p.apiKey with
    | nil => rw [hk] at hkey; cases hkey
    | cons c t => rfl
  simp [callGeminiAPIInternal, hft, hsel, hkeyne, hmodel, htok, outputTokenSteps,
    tryBudgets, attemptStep, hkey, hfetch]

theorem callGeminiAPIInternal_guard (fetch : FetchOracle) (p : ApiParams)
    (hft : p.fullText.isEmpty = false) (hsel : p.selectedText.isEmpty = false)
    (hkey : p.apiKey.isEmpty = false) (hmodel : p.modelName.isEmpty = false)
    (htok : estimatedInputTokens p.selectedText p.fullText > 1200) :
    callGeminiAPIInternal fetch p = Except.error inputTooLongMsg := by
  simp [callGeminiAPIInternal, hft, hsel, hkey, hmodel, htok]

/-- C10: for every input passing the basic validity checks whose
estimated token count (ceil of length over 4 of truncated context,
selected text and summary, plus 150) exceeds 1200,
`callGeminiAPIInternal` throws the Input too long error for every fetch
oracle, so no such request ever reaches the outbound call. -/
theorem input_token_guard (fetch : FetchOracle) (p : ApiParams)
    (hft : p.fullText ≠ []) (hsel : p.selectedText ≠ [])
    (hkey : p.apiKey ≠ []) (hmodel : p.modelName ≠ [])
    (htok : estimatedInputTokens p.selectedText p.fullText > 1200) :
    callGeminiAPIInternal fetch p = Except.error inputTooLongMsg :=
  callGeminiAPIInternal_guard fetch p ((isEmpty_false_iff _).mpr hft)
    ((isEmpty_false_iff _).mpr hsel) ((isEmpty_false_iff _).mpr hkey)
    ((isEmpty_false_iff _).mpr hmodel) htok

/-- Witness for C10: a 4200-character selection on a small page pushes
the estimate to 1213 tokens and is rejected although the fetch oracle
would succeed. -/
theorem input_token_guard_witness :
    callGeminiAPIInternal (fun _ => Except.ok sampleTech40)
        ⟨("sk-or-key").data, ("m").data, List.replicate 4200 'b',
          ("Alpha beta. Gamma delta.").data, ("Technical").data⟩
      = Except.error inputTooLongMsg := by
  refine input_token_guard (fun _ => Except.ok sampleTech40)
      ⟨("sk-or-key").data, ("m").data, List.replicate 4200 'b',
        ("Alpha beta. Gamma delta.").data, ("Technical").data⟩
      (by decide) ?_ (by decide) (by decide) ?_
  · intro h
    have hlen := congrArg List.length h
    rw [List.length_replicate] at hlen
    simp at hlen
  · have h1 : getRelevantContext ("Alpha beta. Gamma delta.").data (List.replicate 4200 'b')
        = ("Alpha beta. Gamma delta.").data := by decide
    have h2 : estimateTokens (List.replicate 4200 'b') = 1050 := by
      unfold estimateTokens
      rw [List.length_replicate]
    unfold estimatedInputTokens
    rw [h1, h2]
    decide

/-! Supporting lemmas about the cache and the handler. -/

theorem cacheGet_cacheSet (c : Cache) (k : Str) (e : CacheEntry) :
    cacheGet (cacheSet c k e) k = some e := by
  induction c with
  | nil => simp [cacheSet, cacheGet]
  | cons kv rest ih =>
      obtain ⟨k0, e0⟩ := kv
      by_cases h : k0 = k
      · simp [cacheSet, cacheGet, h]
      · simp [cacheSet, cacheGet, h, ih]

theorem cacheGet_cacheSet_ne (c : Cache) (k k2 : Str) (e : CacheEntry) (h : k ≠ k2) :
    cacheGet (cacheSet c k e) k2 = cacheGet c k2 := by
  induction c with
  | nil => simp [cacheSet, cacheGet, h]
  | cons kv rest ih =>
      obtain ⟨k0, e0⟩ := kv
      by_cases h0 : k0 = k
      · subst h0
        simp [cacheSet, cacheGet, h]
      · by_cases h2 : k0 = k2 <;> simp [cacheSet, cacheGet, h0, h2, ih, Ne.symm h]

theorem cacheGet_cacheRemove (c : Cache) (k : Str) :
    cacheGet (cacheRemove c k) k = none := by
  induction c with
  | nil => simp [cacheRemove, cacheGet]
  | cons kv rest ih =>
      obtain ⟨k0, e0⟩ := kv
      by_cases h : k0 = k
      · simp [cacheRemove, cacheGet, h, ih]
      · simp [cacheRemove, cacheGet, h, ih]

theorem mem_sweepCache (now : Nat) (c : Cache) (kv : Str × CacheEntry) :
    kv ∈ sweepCache now c ↔ kv ∈ c ∧ now - kv.2.timestamp ≤ CACHE_TTL := by
  simp only [sweepCache, List.mem_filter, Bool.not_eq_true', decide_eq_false_iff_not,
    Nat.not_lt]

theorem take2000_isEmpty (l : Str) (h : l.isEmpty = false) :
    (l.take 2000).isEmpty = false := by
  cases l with
  | nil => cases h
  | cons c t => rfl

theorem proceedPart_shape (fetch : FetchOracle) (ext : ExtractionResult)
    (k m : Str) (req : RequestPayload) :
    (∃ msg d, proceedPart fetch ext k m req = (HResponse.failure msg, d, none)) ∨
    (∃ v, proceedPart fetch ext k m req = (HResponse.success v false, true, some v)) := by
  cases ext with
  | scriptError => exact Or.inl ⟨scriptFailMsg, false, rfl⟩
  | noResult => exact Or.inl ⟨noResultMsg, false, rfl⟩
  | ok pageText =>
      by_cases h1 : pageText.isEmpty = true
      · exact Or.inl ⟨noResultMsg, false, by simp [proceedPart, h1]⟩
      · by_cases h2 : (trimStr pageText).isEmpty = true
        · exact Or.inl ⟨noReadableMsg, false, by simp [proceedPart, h1, h2]⟩
        · by_cases h3 : (hasSubstr pageText ("Unable to extract text").data
              || hasSubstr pageText ("No content available").data) = true
          · exact Or.inl ⟨notReadablePageMsg, false, by simp [proceedPart, h1, h2, h3]⟩
          · cases h4 : callGeminiAPIInternal fetch
                ⟨k, m, req.selectedText, pageText.take 2000, req.style⟩ with
            | error e =>
                exact Or.inl ⟨e, true, by simp [proceedPart, h1, h2, h3, h4]⟩
            | ok content =>
                cases h5 : validateResponse content req.style with
                | error e =>
                    exact Or.inl ⟨e, true, by simp [proceedPart, h1, h2, h3, h4, h5]⟩
                | ok w =>
                    exact Or.inr ⟨w, by simp [proceedPart, h1, h2, h3, h4, h5]⟩

theorem getExplanation_hit (fetch : FetchOracle) (env : HandlerEnv) (cache : Cache)
    (req : RequestPayload) (now : Nat) (e : CacheEntry)
    (hk : env.apiKey.isEmpty = false) (hm : env.modelName.isEmpty = false)
    (hget : cacheGet cache (cacheKeyOf req.selectedText req.style env.modelName) = some e)
    (httl : now - e.timestamp < CACHE_TTL) :
    getExplanation fetch env cache req now
      = ⟨HResponse.success e.data true, false, false, cache⟩ := by
  simp [getExplanation, hk, hm, hget, httl]

theorem getExplanation_proceed (fetch : FetchOracle) (env : HandlerEnv) (cache : Cache)
    (req : RequestPayload) (now : Nat)
    (hk : env.apiKey.isEmpty = false) (hm : env.modelName.isEmpty = false)
    (hmiss : ∀ e, cacheGet cache (cacheKeyOf req.selectedText req.style env.modelName) = some e
      → ¬ (now - e.timestamp < CACHE_TTL)) :
    getExplanation fetch env cache req now
      = ⟨(proceedPart fetch env.extraction env.apiKey env.modelName req).1, true,
         (proceedPart fetch env.extraction env.apiKey env.modelName req).2.1,
         match (proceedPart fetch env.extraction env.apiKey env.modelName req).2.2 with
         | some v => cacheSet cache (cacheKeyOf req.selectedText req.style env.modelName)
             ⟨v, now⟩
         | none => cache⟩ := by
  cases hget : cacheGet cache (cacheKeyOf req.selectedText req.style env.modelName) with
  | none => simp [getExplanation, hk, hm, hget]
  | some e =>
      have h := hmiss e hget
      simp [getExplanation, hk, hm, hget, h]

theorem getExplanation_success_inv (fetch : FetchOracle) (env : HandlerEnv) (cache : Cache)
    (req : RequestPayload) (now : Nat) (v : Str)
    (hrun : (getExplanation fetch env cache req now).response = HResponse.success v false) :
    env.apiKey.isEmpty = false ∧ env.modelName.isEmpty = false ∧
      (getExplanation fetch env cache req now).cacheAfter
        = cacheSet cache (cacheKeyOf req.selectedText req.style env.modelName) ⟨v, now⟩ := by
  by_cases hk : env.apiKey.isEmpty = true
  · simp [getExplanation, hk] at hrun
  · by_cases hm : env.modelName.isEmpty = true
    · simp [getExplanation, hk, hm] at hrun
    · have hk' : env.apiKey.isEmpty = false := by simpa using hk
      have hm' : env.modelName.isEmpty = false := by simpa using hm
      refine ⟨hk', hm', ?_⟩
      have hproceed : ∀ e,
          cacheGet cache (cacheKeyOf req.selectedText req.style env.modelName) = some e
            → ¬ (now - e.timestamp < CACHE_TTL) := by
        intro e hget httl
        rw [getExplanation_hit fetch env cache req now e hk' hm' hget httl] at hrun
        simp at hrun
      rw [getExplanation_proceed fetch env cache req now hk' hm' hproceed] at hrun ⊢
      rcases proceedPart_shape fetch env.extraction env.apiKey env.modelName req with
        ⟨msg, d, hpr⟩ | ⟨w, hpr⟩
      · rw [hpr] at hrun
        simp at hrun
      · rw [hpr] at hrun ⊢
        simp at hrun
        rw [hrun]

/-- C4: an entry cached by a fresh validated request is returned by a
second identical request within the TTL: the response carries the
cached value with cached true, no extraction and no dispatch are
performed (whatever extraction and fetch collaborators the
second request would use), and the cache is unchanged.  Dually, a lookup
that reads an entry whose age has reached the TTL behaves exactly as if
the entry were absent: it is a miss on read even though not yet swept. -/
theorem cache_hit_within_ttl :
    (∀ (fetch : FetchOracle) (env : HandlerEnv) (cache : Cache) (req : RequestPayload)
        (now : Nat) (v : Str),
      (getExplanation fetch env cache req now).response = HResponse.success v false →
      ∀ (fetch2 : FetchOracle) (ext2 : ExtractionResult) (now2 : Nat),
        now2 - now < CACHE_TTL →
        getExplanation fetch2 ⟨env.apiKey, env.modelName, ext2⟩
            (getExplanation fetch env cache req now).cacheAfter req now2
          = ⟨HResponse.success v true, false, false,
              (getExplanation fetch env cache req now).cacheAfter⟩)
    ∧ (∀ (fetch : FetchOracle) (env : HandlerEnv) (cache : Cache) (req : RequestPayload)
        (now : Nat) (e : CacheEntry),
      cacheGet cache (cacheKeyOf req.selectedText req.style env.modelName) = some e →
      CACHE_TTL ≤ now - e.timestamp →
      ((getExplanation fetch env cache req now).response,
       (getExplanation fetch env cache req now).extracted,
       (getExplanation fetch env cache req now).dispatched)
        = ((getExplanation fetch env
              (cacheRemove cache (cacheKeyOf req.selectedText req.style env.modelName))
              req now).response,
           (getExplanation fetch env
              (cacheRemove cache (cacheKeyOf req.selectedText req.style env.modelName))
              req now).extracted,
           (getExplanation fetch env
              (cacheRemove cache (cacheKeyOf req.selectedText req.style env.modelName))
              req now).dispatched)) := by
  constructor
  · intro fetch env cache req now v hrun fetch2 ext2 now2 httl
    obtain ⟨hk, hm, hafter⟩ := getExplanation_success_inv fetch env cache req now v hrun
    rw [hafter]
    exact getExplanation_hit fetch2 ⟨env.apiKey, env.modelName, ext2⟩ _ req now2 ⟨v, now⟩
      hk hm (cacheGet_cacheSet cache _ ⟨v, now⟩) httl
  · intro fetch env cache req now e hget httl
    by_cases hk : env.apiKey.isEmpty = true
    · simp [getExplanation, hk]
    · by_cases hm : env.modelName.isEmpty = true
      · simp [getExplanation, hk, hm]
      · have hk' : env.apiKey.isEmpty = false := by simpa using hk
        have hm' : env.modelName.isEmpty = false := by simpa using hm
        have hmiss1 : ∀ e2,
            cacheGet cache (cacheKeyOf req.selectedText req.style env.modelName) = some e2
              → ¬ (now - e2.timestamp < CACHE_TTL) := by
          intro e2 hget2 hlt
          rw [hget] at hget2
          injection hget2 with hget2
          subst hget2
          omega
        rw [getExplanation_proceed fetch env cache req now hk' hm' hmiss1,
          getExplanation_proceed fetch env
            (cacheRemove cache (cacheKeyOf req.selectedText req.style env.modelName))
            req now hk' hm' (by
              intro e2 hget2
              rw [cacheGet_cacheRemove] at hget2
              cases hget2)]

/-- Witness for C4: a concrete first request dispatches, validates and
caches; an identical request 1699000 ms later (within the 30-minute
TTL) is served from the cache with cached true, with no extraction and
no dispatch, even though its extraction collaborator would fail and its
fetch oracle would error. -/
theorem cache_hit_within_ttl_witness :
    getExplanation (fun _ => Except.error ("down").data)
        ⟨("sk-or-key").data, ("m").data, ExtractionResult.scriptError⟩
        (getExplanation (fun _ => Except.ok sampleTech40)
          ⟨("sk-or-key").data, ("m").data,
            ExtractionResult.ok ("A mutex prevents concurrent access to shared state. It locks things.").data⟩
          [] ⟨("mutex").data, ("Technical").data⟩ 1000).cacheAfter
        ⟨("mutex").data, ("Technical").data⟩ 1700000
      = ⟨HResponse.success sampleTech40 true, false, false,
          (getExplanation (fun _ => Except.ok sampleTech40)
            ⟨("sk-or-key").data, ("m").data,
              ExtractionResult.ok ("A mutex prevents concurrent access to shared state. It locks things.").data⟩
            [] ⟨("mutex").data, ("Technical").data⟩ 1000).cacheAfter⟩ := by
  exact cache_hit_within_ttl.1 (fun _ => Except.ok sampleTech40)
      ⟨("sk-or-key").data, ("m").data,
        ExtractionResult.ok ("A mutex prevents concurrent access to shared state. It locks things.").data⟩
      [] ⟨("mutex").data, ("Technical").data⟩ 1000 sampleTech40 (by decide)
      (fun _ => Except.error ("down").data) ExtractionResult.scriptError 1700000 (by decide)

/-- C5 (amended): the cache key depends on all three components:
triples agreeing on two of the components can only collide by agreeing
on the third (same selected text and style force equal model ids, same
style and model id force equal selected texts, and same selected text
and model id force equal styles), and an entry stored for one triple is
invisible to lookups of every triple whose dash-joined key differs.
Distinct triples CAN still collide when a dash inside selectedText or
modelId makes the dash-joined keys coincide; see the counterexample. -/
theorem cache_key_components (s s2 st st2 m m2 : Str) :
    (cacheKeyOf s st m = cacheKeyOf s st m2 → m = m2)
    ∧ (cacheKeyOf s st m = cacheKeyOf s2 st m → s = s2)
    ∧ (cacheKeyOf s st m = cacheKeyOf s st2 m → st = st2)
    ∧ (∀ (cache : Cache) (e : CacheEntry),
        cacheKeyOf s st m ≠ cacheKeyOf s2 st2 m2 →
        cacheGet (cacheSet cache (cacheKeyOf s st m) e) (cacheKeyOf s2 st2 m2)
          = cacheGet cache (cacheKeyOf s2 st2 m2)) := by
  refine ⟨?_, ?_, ?_, ?_⟩
  · intro h
    unfold cacheKeyOf at h
    exact List.append_cancel_left h
  · intro h
    unfold cacheKeyOf at h
    exact List.append_cancel_right
      (List.append_cancel_right (List.append_cancel_right (List.append_cancel_right h)))
  · intro h
    unfold cacheKeyOf at h
    exact List.append_cancel_left
      (List.append_cancel_right (List.append_cancel_right h))
  · intro cache e hne
    exact cacheGet_cacheSet_ne cache _ _ e hne

/-- Witness for C5: an entry stored for (selectedText "a", style
"Simple", model "m1") is not returned for the same text and style with
the other model "m2", nor for the same text and model with the other
style "Technical": both lookups miss on the singleton cache holding
that entry. -/
theorem cache_key_components_witness :
    cacheGet (cacheSet [] (cacheKeyOf ("a").data ("Simple").data ("m1").data)
        ⟨("v1").data, 0⟩) (cacheKeyOf ("a").data ("Simple").data ("m2").data) = none
    ∧ cacheGet (cacheSet [] (cacheKeyOf ("a").data ("Simple").data ("m1").data)
        ⟨("v1").data, 0⟩) (cacheKeyOf ("a").data ("Technical").data ("m1").data) = none := by
  constructor
  · exact ((cache_key_components ("a").data ("a").data ("Simple").data ("Simple").data
      ("m1").data ("m2").data).2.2.2 [] ⟨("v1").data, 0⟩ (by decide)).trans rfl
  · exact ((cache_key_components ("a").data ("a").data ("Simple").data ("Technical").data
      ("m1").data ("m1").data).2.2.2 [] ⟨("v1").data, 0⟩ (by decide)).trans rfl

/-- Counterexample for C5 as stated: the triples
(selectedText="a", style="Simple", modelId="Simple-m") and
(selectedText="a-Simple", style="Simple", modelId="m") differ, yet the
dash-joined keys coincide ("a-Simple-Simple-m"), so the entry stored by
a request with the first triple is returned as a cache hit (cached
true, no dispatch) to a request with the second triple. -/
theorem cache_key_collision_counterexample :
    ((("a").data, ("Simple").data, ("Simple-m").data)
        ≠ ((("a-Simple").data : Str), (("Simple").data : Str), (("m").data : Str)))
    ∧ getExplanation (fun _ => Except.error ("down").data)
        ⟨("sk-or-key").data, ("m").data, ExtractionResult.scriptError⟩
        (getExplanation (fun _ => Except.ok sampleSimple50)
          ⟨("sk-or-key").data, ("Simple-m").data,
            ExtractionResult.ok ("Words appear here in sentences. More words appear here.").data⟩
          [] ⟨("a").data, ("Simple").data⟩ 1000).cacheAfter
        ⟨("a-Simple").data, ("Simple").data⟩ 1000
      = ⟨HResponse.success sampleSimple50 true, false, false,
          (getExplanation (fun _ => Except.ok sampleSimple50)
            ⟨("sk-or-key").data, ("Simple-m").data,
              ExtractionResult.ok ("Words appear here in sentences. More words appear here.").data⟩
            [] ⟨("a").data, ("Simple").data⟩ 1000).cacheAfter⟩ := by
  constructor
  · decide
  · decide

/-- C6 (amended): after a completed dispatch the shared last-request timestamp of
the rate limiter is updated to the completion time only on the
success path; a dispatch that completes on the failure path leaves the
timestamp unchanged. -/
theorem rate_limit_timestamp_update (fetch : FetchOracle) (p : ApiParams)
    (last doneAt : Nat) :
    (∀ r, callGeminiAPIInternal fetch p = Except.ok r →
      processDispatch fetch p last doneAt = (doneAt, Except.ok r))
    ∧ (∀ e, callGeminiAPIInternal fetch p = Except.error e →
      processDispatch fetch p last doneAt = (last, Except.error e)) := by
  constructor <;> intro x h <;> simp [processDispatch, h]

/-- Witness for C6: a succeeding dispatch moves the timestamp from 5 to
the completion time 999; a failing dispatch leaves it at 5. -/
theorem rate_limit_timestamp_update_witness :
    processDispatch (fun _ => Except.ok sampleTech40)
        ⟨("sk-or-key").data, ("m").data, ("mutex").data,
          ("A mutex prevents concurrent access to shared state.").data, ("Technical").data⟩
        5 999
      = (999, Except.ok sampleTech40)
    ∧ processDispatch (fun _ => Except.ok sampleTech40) ⟨[], [], [], [], []⟩ 5 999
      = (5, Except.error invalidPageMsg) := by
  constructor
  · exact (rate_limit_timestamp_update (fun _ => Except.ok sampleTech40)
      ⟨("sk-or-key").data, ("m").data, ("mutex").data,
        ("A mutex prevents concurrent access to shared state.").data, ("Technical").data⟩
      5 999).1 sampleTech40 (by decide)
  · exact (rate_limit_timestamp_update (fun _ => Except.ok sampleTech40)
      ⟨[], [], [], [], []⟩ 5 999).2 invalidPageMsg (by decide)

/-- Counterexample for C6 as stated: a dispatch that completes on the
failure path (here with the invalid-page error) does NOT update the
shared timestamp to the completion time 999; it stays at the previous
value 5. -/
theorem rate_limit_timestamp_counterexample :
    (processDispatch (fun _ => Except.ok sampleTech40) ⟨[], [], [], [], []⟩ 5 999).2
      = Except.error invalidPageMsg
    ∧ (processDispatch (fun _ => Except.ok sampleTech40) ⟨[], [], [], [], []⟩ 5 999).1 = 5
    ∧ (5 : Nat) ≠ 999 := by
  refine ⟨by decide, by decide, by decide⟩

/-- C9 (amended): a lookup that reads an expired cache entry does not
remove it: whenever the request ends in a failure (so nothing fresh is
stored over the key), the cache after the request is exactly the cache
before and the expired entry is still present.  Expired entries are
removed only by the hourly sweep, which keeps exactly the entries whose
age is at most the TTL (or are overwritten by a later successful
refresh of the same key). -/
theorem lazy_expiry_no_removal :
    (∀ (fetch : FetchOracle) (env : HandlerEnv) (cache : Cache) (req : RequestPayload)
        (now : Nat) (e : CacheEntry) (msg : Str),
      cacheGet cache (cacheKeyOf req.selectedText req.style env.modelName) = some e →
      CACHE_TTL < now - e.timestamp →
      (getExplanation fetch env cache req now).response = HResponse.failure msg →
      (getExplanation fetch env cache req now).cacheAfter = cache
        ∧ cacheGet (getExplanation fetch env cache req now).cacheAfter
            (cacheKeyOf req.selectedText req.style env.modelName) = some e)
    ∧ (∀ (now : Nat) (c : Cache) (kv : Str × CacheEntry),
        kv ∈ sweepCache now c ↔ kv ∈ c ∧ now - kv.2.timestamp ≤ CACHE_TTL) := by
  constructor
  · intro fetch env cache req now e msg hget httl hfail
    by_cases hk : env.apiKey.isEmpty = true
    · refine ⟨by simp [getExplanation, hk], ?_⟩
      simp [getExplanation, hk, hget]
    · by_cases hm : env.modelName.isEmpty = true
      · refine ⟨by simp [getExplanation, hk, hm], ?_⟩
        simp [getExplanation, hk, hm, hget]
      · have hk' : env.apiKey.isEmpty = false := by simpa using hk
        have hm' : env.modelName.isEmpty = false := by simpa using hm
        have hmiss : ∀ e2,
            cacheGet cache (cacheKeyOf req.selectedText req.style env.modelName) = some e2
              → ¬ (now - e2.timestamp < CACHE_TTL) := by
          intro e2 hget2 hlt
          rw [hget] at hget2
          injection hget2 with hget2
          subst hget2
          omega
        rw [getExplanation_proceed fetch env cache req now hk' hm' hmiss] at hfail ⊢
        rcases proceedPart_shape fetch env.extraction env.apiKey env.modelName req with
          ⟨msg2, d, hpr⟩ | ⟨w, hpr⟩
        · rw [hpr]
          exact ⟨rfl, hget⟩
        · rw [hpr] at hfail
          simp at hfail
  · intro now c kv
    exact mem_sweepCache now c kv

/-- Witness for C9: an expired entry (age TTL+5) read by a request
whose extraction returns no result survives the request untouched, and
the hourly sweep does drop it. -/
theorem lazy_expiry_no_removal_witness :
    ((getExplanation (fun _ => Except.ok sampleTech40)
        ⟨("sk-or-key").data, ("m").data, ExtractionResult.noResult⟩
        [(cacheKeyOf ("t").data ("Simple").data ("m").data,
          ⟨("old").data, 0⟩)]
        ⟨("t").data, ("Simple").data⟩ (CACHE_TTL + 5)).cacheAfter
      = [(cacheKeyOf ("t").data ("Simple").data ("m").data, ⟨("old").data, 0⟩)]
      ∧ cacheGet (getExplanation (fun _ => Except.ok sampleTech40)
          ⟨("sk-or-key").data, ("m").data, ExtractionResult.noResult⟩
          [(cacheKeyOf ("t").data ("Simple").data ("m").data, ⟨("old").data, 0⟩)]
          ⟨("t").data, ("Simple").data⟩ (CACHE_TTL + 5)).cacheAfter
          (cacheKeyOf ("t").data ("Simple").data ("m").data)
        = some ⟨("old").data, 0⟩)
    ∧ (cacheKeyOf ("t").data ("Simple").data ("m").data, (⟨("old").data, 0⟩ : CacheEntry))
        ∉ sweepCache (CACHE_TTL + 5)
            [(cacheKeyOf ("t").data ("Simple").data ("m").data, ⟨("old").data, 0⟩)] := by
  constructor
  · exact lazy_expiry_no_removal.1 (fun _ => Except.ok sampleTech40)
      ⟨("sk-or-key").data, ("m").data, ExtractionResult.noResult⟩
      [(cacheKeyOf ("t").data ("Simple").data ("m").data, ⟨("old").data, 0⟩)]
      ⟨("t").data, ("Simple").data⟩ (CACHE_TTL + 5) ⟨("old").data, 0⟩ noResultMsg
      (by decide) (by decide) (by decide)
  · intro h
    exact absurd ((lazy_expiry_no_removal.2 (CACHE_TTL + 5)
      [(cacheKeyOf ("t").data ("Simple").data ("m").data, ⟨("old").data, 0⟩)]
      (cacheKeyOf ("t").data ("Simple").data ("m").data, ⟨("old").data, 0⟩)).mp h).2
      (by decide)

/-- Counterexample for C9 as stated: a lookup that reads an entry whose
age (TTL+1) exceeds the TTL does NOT remove it from the cache: after
the request (whose script-injection fails, so nothing is stored) the
cache still holds the expired entry. -/
theorem lazy_removal_counterexample :
    CACHE_TTL < (CACHE_TTL + 1) - 0
    ∧ cacheGet [(cacheKeyOf ("w").data ("Technical").data ("m").data,
          ⟨("stale").data, 0⟩)]
        (cacheKeyOf ("w").data ("Technical").data ("m").data) = some ⟨("stale").data, 0⟩
    ∧ (getExplanation (fun _ => Except.ok sampleTech40)
        ⟨("sk-or-key").data, ("m").data, ExtractionResult.scriptError⟩
        [(cacheKeyOf ("w").data ("Technical").data ("m").data, ⟨("stale").data, 0⟩)]
        ⟨("w").data, ("Technical").data⟩ (CACHE_TTL + 1)).cacheAfter
      = [(cacheKeyOf ("w").data ("Technical").data ("m").data, ⟨("stale").data, 0⟩)] := by
  refine ⟨by decide, by decide, by decide⟩

theorem getExplanation_inputTooLong (fetch : FetchOracle) (env : HandlerEnv) (cache : Cache)
    (req : RequestPayload) (now : Nat) (pageText : Str)
    (hk : env.apiKey.isEmpty = false) (hm : env.modelName.isEmpty = false)
    (hmiss : cacheGet cache (cacheKeyOf req.selectedText req.style env.modelName) = none)
    (hext : env.extraction = ExtractionResult.ok pageText)
    (hpt : pageText.isEmpty = false) (hptr : (trimStr pageText).isEmpty = false)
    (hsent : (hasSubstr pageText ("Unable to extract text").data
        || hasSubstr pageText ("No content available").data) = false)
    (hsel : req.selectedText.isEmpty = false)
    (htok : estimatedInputTokens req.selectedText (pageText.take 2000) > 1200) :
    getExplanation fetch env cache req now
      = ⟨HResponse.failure inputTooLongMsg, true, true, cache⟩ := by
  have hmiss' : ∀ e,
      cacheGet cache (cacheKeyOf req.selectedText req.style env.modelName) = some e
        → ¬ (now - e.timestamp < CACHE_TTL) := by
    intro e he
    rw [hmiss] at he
    cases he
  rw [getExplanation_proceed fetch env cache req now hk hm hmiss', hext]
  have hint := callGeminiAPIInternal_guard fetch
    ⟨env.apiKey, env.modelName, req.selectedText, pageText.take 2000, req.style⟩
    (take2000_isEmpty pageText hpt) hsel hk hm htok
  simp [proceedPart, hpt, hptr, hsent, hint]

/-- C2 (amended): the request path has no context-shrink retry.  When a
dispatch fails with the input-too-large condition, the failure surfaces
directly to the entry point for EVERY fetch oracle, in particular one
whose dispatch would succeed at any budget (so the claimed
shrink-and-retry cycle, which would then succeed, does not happen).
The only shrink-and-retry implementation, `withRetry`, is never invoked
by the handler, and its trigger substring (Token limit exceeded) does
not even occur in the input-too-large message the dispatch actually
throws. -/
theorem no_context_shrink_retry :
    (∀ (fetch : FetchOracle) (env : HandlerEnv) (cache : Cache) (req : RequestPayload)
        (now : Nat) (pageText : Str),
      env.apiKey.isEmpty = false → env.modelName.isEmpty = false →
      cacheGet cache (cacheKeyOf req.selectedText req.style env.modelName) = none →
      env.extraction = ExtractionResult.ok pageText →
      pageText.isEmpty = false → (trimStr pageText).isEmpty = false →
      (hasSubstr pageText ("Unable to extract text").data
        || hasSubstr pageText ("No content available").data) = false →
      req.selectedText.isEmpty = false →
      estimatedInputTokens req.selectedText (pageText.take 2000) > 1200 →
      getExplanation fetch env cache req now
        = ⟨HResponse.failure inputTooLongMsg, true, true, cache⟩)
    ∧ hasSubstr inputTooLongMsg tokenLimitTrigger = false := by
  refine ⟨?_, by decide⟩
  intro fetch env cache req now pageText hk hm hmiss hext hpt hptr hsent hsel htok
  exact getExplanation_inputTooLong fetch env cache req now pageText
    hk hm hmiss hext hpt hptr hsent hsel htok

/-- Witness for C2 at a concrete request with a 3200-character
selection on an 816-character page: the estimate is 800+200+100+150 =
1250 tokens and the request fails with the Input too long message even
though the fetch oracle would succeed (after the claimed shrink to a
100-character context the estimate would be 955, within the limit). -/
theorem no_context_shrink_retry_witness :
    getExplanation (fun _ => Except.ok sampleSimple50)
        ⟨("sk-or-key").data, ("m").data, ExtractionResult.ok samplePageLarge⟩
        [] ⟨List.replicate 3200 'x', ("Simple").data⟩ 7
      = ⟨HResponse.failure inputTooLongMsg, true, true, []⟩
    ∧ hasSubstr inputTooLongMsg tokenLimitTrigger = false := by
  constructor
  · refine no_context_shrink_retry.1 (fun _ => Except.ok sampleSimple50)
      ⟨("sk-or-key").data, ("m").data, ExtractionResult.ok samplePageLarge⟩
      [] ⟨List.replicate 3200 'x', ("Simple").data⟩ 7 samplePageLarge
      (by decide) (by decide) rfl rfl (by decide) (by decide) (by decide) (by decide) ?_
    have h1 : getRelevantContext (samplePageLarge.take 2000) (List.replicate 3200 'x')
        = (samplePageLarge.take 2000).take 800 := by decide
    have h2 : estimateTokens (List.replicate 3200 'x') = 800 := by
      unfold estimateTokens
      rw [List.length_replicate]
    unfold estimatedInputTokens
    rw [h1, h2]
    decide
  · exact no_context_shrink_retry.2

/-- Counterexample for C2 as stated: a request with a 3100-character
selection on an 816-character page and a fetch oracle that succeeds at
every budget.  The initial estimate is 775+200+100+150 = 1225 > 1200,
so the dispatch fails as input-too-large and the entry point surfaces
that failure immediately (first conjunct).  Under the claimed recovery
the first shrink occurrence reduces the context base to
floor(500 times 0.2) = 100 characters of the original full text while
the selection is untouched; the second conjunct proves the estimate of
that shrunk cycle is 775+25+5+150 = 955, within the 1200 limit, and the
third conjunct proves the dispatch of the shrunk cycle succeeds.  The
claimed shrink-and-retry would therefore have returned a success
instead of surfacing the failure, so the claim fails on the code. -/
theorem context_shrink_counterexample :
    getExplanation (fun _ => Except.ok sampleTech40)
        ⟨("sk-or-key").data, ("m").data, ExtractionResult.ok samplePageLarge⟩
        [] ⟨List.replicate 3100 'q', ("Technical").data⟩ 1000
      = ⟨HResponse.failure inputTooLongMsg, true, true, []⟩
    ∧ estimatedInputTokens (List.replicate 3100 'q')
        ((samplePageLarge.take 2000).take 100) ≤ 1200
    ∧ callGeminiAPIInternal (fun _ => Except.ok sampleTech40)
        ⟨("sk-or-key").data, ("m").data, List.replicate 3100 'q',
          (samplePageLarge.take 2000).take 100, ("Technical").data⟩
      = Except.ok sampleTech40 := by
  have hq : estimateTokens (List.replicate 3100 'q') = 775 := by
    unfold estimateTokens
    rw [List.length_replicate]
  have hselB : (List.replicate 3100 'q' : Str).isEmpty = false := by decide
  have hest2 : estimatedInputTokens (List.replicate 3100 'q')
      ((samplePageLarge.take 2000).take 100) ≤ 1200 := by
    have hrel : getRelevantContext ((samplePageLarge.take 2000).take 100)
        (List.replicate 3100 'q') = (samplePageLarge.take 2000).take 100 := by decide
    unfold estimatedInputTokens
    rw [hrel, hq]
    decide
  refine ⟨?_, hest2, ?_⟩
  · refine getExplanation_inputTooLong (fun _ => Except.ok sampleTech40)
      ⟨("sk-or-key").data, ("m").data, ExtractionResult.ok samplePageLarge⟩
      [] ⟨List.replicate 3100 'q', ("Technical").data⟩ 1000 samplePageLarge
      (by decide) (by decide) rfl rfl (by decide) (by decide) (by decide) hselB ?_
    have hrel0 : getRelevantContext (samplePageLarge.take 2000) (List.replicate 3100 'q')
        = (samplePageLarge.take 2000).take 800 := by decide
    unfold estimatedInputTokens
    rw [hrel0, hq]
    decide
  · exact callGeminiAPIInternal_first_ok (fun _ => Except.ok sampleTech40)
      ⟨("sk-or-key").data, ("m").data, List.replicate 3100 'q',
        (samplePageLarge.take 2000).take 100, ("Technical").data⟩ sampleTech40
      (by decide) hselB (by decide) (by decide) (Nat.not_lt.mpr hest2) rfl

/-- C1 (amended): the coordination entry point performs no
selected-text length validation of its own.  The 0 < length < 1000
guard lives only in the content script, which refrains from creating
requests outside that range; an empty selection that does reach the
entry point is rejected only inside the dispatch, after page-content
extraction has already been performed (extracted and dispatched are
both true); and a selection of length 1000 or more is not rejected at
all (see the counterexample). -/
theorem entry_point_no_length_guard :
    (∀ sel : Str, sel = [] ∨ 1000 ≤ sel.length → selectionTriggers sel = false)
    ∧ (∀ (fetch : FetchOracle) (env : HandlerEnv) (cache : Cache) (req : RequestPayload)
        (now : Nat) (pageText : Str),
      req.selectedText = [] →
      env.apiKey.isEmpty = false → env.modelName.isEmpty = false →
      cacheGet cache (cacheKeyOf req.selectedText req.style env.modelName) = none →
      env.extraction = ExtractionResult.ok pageText →
      pageText.isEmpty = false → (trimStr pageText).isEmpty = false →
      (hasSubstr pageText ("Unable to extract text").data
        || hasSubstr pageText ("No content available").data) = false →
      getExplanation fetch env cache req now
        = ⟨HResponse.failure invalidSelMsg, true, true, cache⟩) := by
  constructor
  · intro sel h
    rcases h with h | h
    · subst h
      rfl
    · have hlt : ¬ (sel.length < 1000) := by omega
      simp [selectionTriggers, hlt]
  · intro fetch env cache req now pageText hsel hk hm hmiss hext hpt hptr hsent
    have hmiss' : ∀ e,
        cacheGet cache (cacheKeyOf req.selectedText req.style env.modelName) = some e
          → ¬ (now - e.timestamp < CACHE_TTL) := by
      intro e he
      rw [hmiss] at he
      cases he
    rw [getExplanation_proceed fetch env cache req now hk hm hmiss', hext]
    have hint : callGeminiAPIInternal fetch
        ⟨env.apiKey, env.modelName, req.selectedText, pageText.take 2000, req.style⟩
        = Except.error invalidSelMsg := by
      simp [callGeminiAPIInternal, take2000_isEmpty pageText hpt, hsel]
    simp [proceedPart, hpt, hptr, hsent, hint]

/-- Witness for C1: the content-script guard is off for the empty
selection, and an empty selection reaching the entry point is rejected
with the dispatch-internal invalid-selection message only after
extraction and dispatch both happened. -/
theorem entry_point_no_length_guard_witness :
    selectionTriggers [] = false
    ∧ getExplanation (fun _ => Except.ok sampleTech40)
        ⟨("sk-or-key").data, ("m").data,
          ExtractionResult.ok ("Some page text here.").data⟩
        [] ⟨[], ("Technical").data⟩ 1000
      = ⟨HResponse.failure invalidSelMsg, true, true, []⟩ := by
  refine ⟨entry_point_no_length_guard.1 [] (Or.inl rfl), ?_⟩
  exact entry_point_no_length_guard.2 (fun _ => Except.ok sampleTech40)
    ⟨("sk-or-key").data, ("m").data, ExtractionResult.ok ("Some page text here.").data⟩
    [] ⟨[], ("Technical").data⟩ 1000 ("Some page text here.").data
    rfl (by decide) (by decide) rfl rfl (by decide) (by decide) (by decide)

/-- Counterexample for C1 as stated: a getExplanation request whose
selectedText has length exactly 1000 is not rejected at all: the entry
point extracts the page, dispatches, and returns a fresh success. -/
theorem selection_length_counterexample :
    (List.replicate 1000 'a').length = 1000
    ∧ (getExplanation (fun _ => Except.ok sampleTech40)
        ⟨("sk-or-key").data, ("m").data,
          ExtractionResult.ok ("A mutex prevents concurrent access to shared state. It locks things.").data⟩
        [] ⟨List.replicate 1000 'a', ("Technical").data⟩ 1000).extracted = true
    ∧ (getExplanation (fun _ => Except.ok sampleTech40)
        ⟨("sk-or-key").data, ("m").data,
          ExtractionResult.ok ("A mutex prevents concurrent access to shared state. It locks things.").data⟩
        [] ⟨List.replicate 1000 'a', ("Technical").data⟩ 1000).dispatched = true
    ∧ (getExplanation (fun _ => Except.ok sampleTech40)
        ⟨("sk-or-key").data, ("m").data,
          ExtractionResult.ok ("A mutex prevents concurrent access to shared state. It locks things.").data⟩
        [] ⟨List.replicate 1000 'a', ("Technical").data⟩ 1000).response
      = HResponse.success sampleTech40 false := by
  refine ⟨by rw [List.length_replicate], by decide, by decide, by decide⟩

end Contextual
